import Mathlib

/-!
Shallow embedding of the rendering-integration core of hasali19/fluyt
(`src/main.rs` and `flion/src/compositor.rs`), together with theorems
settling the frozen claims about it.

Conventions of the embedding:
* EGL surfaces, visuals and layer pointers are identified by `Nat` ids.
* Floating-point visual sizes/offsets are modelled over `Nat` (the code
  only ever casts integral pixel counts to `f32`).
* A Rust `panic!`/failed `assert!`/`unwrap` on `None` is a distinguished
  `panicked` outcome; `Box::from_raw` on a pointer that was already freed
  is a distinguished undefined-behaviour outcome (`ub`), which is not a
  detected abort.
* Win32 / DWM / compositor API calls are recorded as events in a trace, so
  that ordering claims ("destroy the drawable, then end the draw, then
  flush") become statements about lists.
-/

/-- Resize synchronization states, mirroring `enum ResizeState` in `main.rs`:
`Started(u32, u32) | FrameGenerated | Done`. -/
inductive ResizeState
  | started (w h : Nat)
  | frameGenerated
  | done
deriving DecidableEq

/-- Observable actions performed by `present_frame` / `gl_present` in `main.rs`. -/
inductive GlEvent
  | glFlush
  | destroySurface (s : Nat)
  | makeContextCurrent
  | endDraw
  | dwmFlush
  | commit
  | notifyAll
deriving DecidableEq

/-- The mutable state of `struct Gl` in `main.rs` that the render callbacks read
and write: the resize state machine, the transient drawable (`surface`), the
root visual's size/offset, the composition surface's size, and which surface is
currently bound.  `nextSurfaceId` models allocation of fresh EGL surfaces. -/
structure GlState where
  resizeState : ResizeState
  surface : Option Nat
  visualSize : Nat × Nat
  visualOffset : Nat × Nat
  compositionSurfaceSize : Nat × Nat
  nextSurfaceId : Nat
  currentSurface : Option Nat
deriving DecidableEq

/-- Embedding of `present_frame(gl, sync_dwm)` in `main.rs`.  If no drawable is
stored in `gl.surface` it panics (modelled as `none`); otherwise it flushes GL,
destroys the drawable, re-binds the bare context, ends the composition draw,
optionally calls `DwmFlush`, and commits the compositor transaction. -/
def presentFrame (g : GlState) (syncDwm : Bool) : Option (GlState × List GlEvent) :=
  match g.surface with
  | none => none
  | some s =>
    some ({ g with currentSurface := none },
      [GlEvent.glFlush, GlEvent.destroySurface s, GlEvent.makeContextCurrent,
        GlEvent.endDraw]
        ++ (if syncDwm then [GlEvent.dwmFlush] else [])
        ++ [GlEvent.commit])

/-- Result of one invocation of the `gl_present` callback: either a normal
return carrying the updated `Gl` state, the boolean handed back to the Engine
and the trace of performed actions, or a panic propagated out of
`present_frame`. -/
inductive GlPresentResult
  | ret (g : GlState) (b : Bool) (events : List GlEvent)
  | panicked
deriving DecidableEq

/-- Whether a `gl_present` invocation aborted the process. -/
def GlPresentResult.isPanicked : GlPresentResult → Bool
  | GlPresentResult.panicked => true
  | _ => false

/-- Embedding of the `gl_present` callback in `main.rs`: `Started` refuses with
`false` and touches nothing; `FrameGenerated` presents with a forced `DwmFlush`,
moves the state to `Done` and notifies the condition variable; `Done` presents
without the forced flush.  In the latter two cases `gl.surface` is cleared and
`true` is returned. -/
def glPresent (g : GlState) : GlPresentResult :=
  match g.resizeState with
  | ResizeState.started _ _ => GlPresentResult.ret g false []
  | ResizeState.frameGenerated =>
    match presentFrame g true with
    | none => GlPresentResult.panicked
    | some (g1, evs) =>
      GlPresentResult.ret
        { g1 with resizeState := ResizeState.done, surface := none } true
        (evs ++ [GlEvent.notifyAll])
  | ResizeState.done =>
    match presentFrame g false with
    | none => GlPresentResult.panicked
    | some (g1, evs) =>
      GlPresentResult.ret { g1 with surface := none } true evs

/-- Embedding of the `gl_fbo_callback` callback in `main.rs`.  When the resize
state is `Started(w, h)` it resizes the root visual to `(w, h)`, moves the
visual offset to `(0, h)`, resizes the composition surface to `(w, h)` and sets
the state to `FrameGenerated`; in every case it then begins a draw, wraps the
obtained texture as a fresh EGL pbuffer surface stored in `gl.surface`, makes
that surface current, and returns framebuffer id `0`. -/
def glFboCallback (g : GlState) : GlState × Nat :=
  let g1 :=
    match g.resizeState with
    | ResizeState.started w h =>
      { g with
          visualSize := (w, h)
          visualOffset := (0, h)
          compositionSurfaceSize := (w, h)
          resizeState := ResizeState.frameGenerated }
    | _ => g
  let sid := g1.nextSurfaceId
  ({ g1 with
      surface := some sid
      nextSurfaceId := sid + 1
      currentSurface := some sid }, 0)

/-- Observable actions of the `WM_NCCALCSIZE` arm of `wnd_proc` in `main.rs`. -/
inductive UiEvent
  | defWindowProc
  | sendWindowMetrics (w h : Nat)
  | condvarWaitUntilDone
deriving DecidableEq

/-- Rust `as u32` on a (possibly wrapped) `i32` difference: reduce into
`[0, 2^32)`. -/
def u32OfInt (x : Int) : Nat := (x.emod (2 ^ 32)).toNat

/-- Embedding of the `WM_NCCALCSIZE` arm of `wnd_proc` in `main.rs`: it always
forwards to `DefWindowProcW` first; then, if the subclass data pointer is
non-null and the rectangle has positive width and height, it takes the resize
lock, sets the state to `Started(w, h)`, sends the new window metrics to the
Engine under that same lock acquisition, and blocks on the resize condition
variable.  Otherwise the resize state is left unchanged. -/
def wndProcNcCalcSize (dataIsNull : Bool) (left top right bottom : Int)
    (s : ResizeState) : ResizeState × List UiEvent :=
  if !dataIsNull && decide (left < right) && decide (top < bottom) then
    let w := u32OfInt (right - left)
    let h := u32OfInt (bottom - top)
    (ResizeState.started w h,
      [UiEvent.defWindowProc, UiEvent.sendWindowMetrics w h,
        UiEvent.condvarWaitUntilDone])
  else (s, [UiEvent.defWindowProc])

/-- The predicate passed to `Condvar::wait_while` in `wnd_proc`:
`!matches!(resize_state, ResizeState::Done)`.  The waiter stays blocked exactly
while this returns `true`. -/
def resizeWaitShouldBlock : ResizeState → Bool
  | ResizeState.done => false
  | _ => true

/-- A convenient concrete `Gl` state used by witnesses and counterexamples. -/
def mkGl (s : ResizeState) (surf : Option Nat) : GlState :=
  { resizeState := s
    surface := surf
    visualSize := (800, 600)
    visualOffset := (0, 600)
    compositionSurfaceSize := (800, 600)
    nextSurfaceId := 0
    currentSurface := none }

/-- Embedding of a `FlutterLayer` as seen by `FlutterCompositor::present_layers`
in `compositor.rs`: its pointer identity (`*const FlutterLayer`, compared by
address against the stored snapshot), the visual of its backing
`CompositorFlutterLayer`, whether its content type is
`kFlutterLayerContentTypeBackingStore`, and the backing layer's optional
currently-open EGL surface. -/
structure FLayer where
  ptr : Nat
  visual : Nat
  isBackingStore : Bool
  eglSurface : Option Nat
deriving DecidableEq

/-- Observable actions of `present_layers` in `compositor.rs`. -/
inductive CompEvent
  | endDraw (layer : Nat)
  | destroySurface (s : Nat)
  | removeAllChildren
  | insertAtTop (v : Nat)
  | handlerPresent
deriving DecidableEq

/-- Which contract violation aborted `present_layers`: the slice index
`self.layers[i]` was out of bounds, or the `assert_eq!` on the layer content
type failed. -/
inductive PanicKind
  | indexOutOfBounds
  | assertionFailed
deriving DecidableEq

/-- Outcome of a compositor operation: a normal result or a panic. -/
inductive CompResult (α : Type)
  | ok (a : α)
  | panicked (k : PanicKind)
deriving DecidableEq

/-- Whether an outcome is the out-of-bounds snapshot-indexing panic. -/
def isIndexPanic {α : Type} [DecidableEq α] : CompResult α → Bool
  | CompResult.panicked PanicKind.indexOutOfBounds => true
  | _ => false

/-- Embedding of the first loop of `present_layers` (lines 226-253 of
`compositor.rs`), iterating over the new layers with index `i` and the running
`should_update_composition_layers` flag.  Per layer it: (1) updates the flag
with the short-circuit disjunction
`should_update || self.layers[i] != layer`, panicking on the indexing when it
is evaluated out of bounds; (2) asserts the content type is a backing store;
(3) if the backing layer has an open EGL surface, takes it, ends the
composition draw and destroys it.  Returns the final flag, the layers with
their surfaces taken, and the event trace. -/
def presentLayersLoop (old : List Nat) :
    List FLayer → Nat → Bool → CompResult (Bool × List FLayer × List CompEvent)
  | [], _, flag => CompResult.ok (flag, [], [])
  | l :: rest, i, flag =>
    let flagStep : CompResult Bool :=
      if flag then CompResult.ok true
      else
        match old[i]? with
        | none => CompResult.panicked PanicKind.indexOutOfBounds
        | some o => CompResult.ok (decide (o ≠ l.ptr))
    match flagStep with
    | CompResult.panicked k => CompResult.panicked k
    | CompResult.ok fl =>
      if !l.isBackingStore then CompResult.panicked PanicKind.assertionFailed
      else
        let stepEvents : List CompEvent :=
          match l.eglSurface with
          | some s => [CompEvent.endDraw l.ptr, CompEvent.destroySurface s]
          | none => []
        match presentLayersLoop old rest (i + 1) fl with
        | CompResult.panicked k => CompResult.panicked k
        | CompResult.ok (f, ls, es) =>
          CompResult.ok (f, { l with eglSurface := none } :: ls, stepEvents ++ es)

/-- Embedding of `FlutterCompositor::present_layers` in `compositor.rs`.
`old` is the stored snapshot `self.layers` (the previous frame's ordered layer
pointers).  After the per-layer loop, if the flag is set the root visual's
children are removed, every layer's visual is re-inserted at the top in order,
and the snapshot is replaced by the new pointer list; otherwise the visual tree
and the snapshot are left untouched.  Finally `handler.present()` runs.
Returns the new snapshot, the drained layers and the event trace. -/
def presentLayers (old : List Nat) (layers : List FLayer) :
    CompResult (List Nat × List FLayer × List CompEvent) :=
  match presentLayersLoop old layers 0 (decide (old.length ≠ layers.length)) with
  | CompResult.panicked k => CompResult.panicked k
  | CompResult.ok (flag, drained, evs) =>
    if flag then
      CompResult.ok (layers.map FLayer.ptr, drained,
        evs ++ CompEvent.removeAllChildren ::
          (layers.map (fun l => CompEvent.insertAtTop l.visual)
            ++ [CompEvent.handlerPresent]))
    else
      CompResult.ok (old, drained, evs ++ [CompEvent.handlerPresent])

/-- The visual-tree mutations contained in a `present_layers` trace: removals
of all children and insertions of a visual. -/
def visualMutations (evs : List CompEvent) : List CompEvent :=
  evs.filter fun e =>
    match e with
    | CompEvent.removeAllChildren => true
    | CompEvent.insertAtTop _ => true
    | _ => false

/-- The per-layer drawable-finalization events of one `present_layers` call:
for each layer with an open EGL surface, the composition draw is ended and the
surface destroyed. -/
def drainEvents : List FLayer → List CompEvent
  | [] => []
  | l :: rest =>
    (match l.eglSurface with
      | some s => [CompEvent.endDraw l.ptr, CompEvent.destroySurface s]
      | none => []) ++ drainEvents rest

/-- The layers after `present_layers` has taken every open EGL surface. -/
def drainedLayers (layers : List FLayer) : List FLayer :=
  layers.map fun l => { l with eglSurface := none }

/-- Embedding of the `CompositorFlutterLayer` struct of `compositor.rs` (its
compositor visual and optional currently-open EGL surface; the shared
`EglManager` and the composition surface carry no state the claims need). -/
structure CLayer where
  visual : Nat
  eglSurface : Option Nat
deriving DecidableEq

/-- Observable actions of `collect_backing_store` in `compositor.rs`. -/
inductive CollectEvent
  | destroySurface (s : Nat)
  | dropLayer
deriving DecidableEq

/-- Outcome of `collect_backing_store`.  `ok` carries the updated layer store
and the action trace; `panicked` would be a deliberate, detectable abort
(an `assert!`/`panic!`; the code contains none on this path); `ub` is the
undefined behaviour of `Box::from_raw` on a pointer whose allocation was
already freed. -/
inductive CollectOutcome
  | ok (store : List (Option CLayer)) (events : List CollectEvent)
  | panicked
  | ub
deriving DecidableEq

/-- Whether `collect_backing_store` ended in a deliberate, detectable abort. -/
def CollectOutcome.isDetectedAbort : CollectOutcome → Bool
  | CollectOutcome.panicked => true
  | _ => false

/-- Embedding of `FlutterCompositor::collect_backing_store` in `compositor.rs`.
The heap of `CompositorFlutterLayer` allocations is modelled as a store indexed
by handle; a live handle maps to `some layer`, a freed one to `none`.  The code
unconditionally reclaims the box (`Box::from_raw`), destroys the layer's EGL
surface if one is still open, and drops the layer; on a handle that was already
collected this is an unchecked use-after-free, i.e. undefined behaviour, not a
detected failure. -/
def collectBackingStore (store : List (Option CLayer)) (h : Nat) : CollectOutcome :=
  match store[h]? with
  | some (some layer) =>
    CollectOutcome.ok (store.set h none)
      (match layer.eglSurface with
        | some s => [CollectEvent.destroySurface s, CollectEvent.dropLayer]
        | none => [CollectEvent.dropLayer])
  | _ => CollectOutcome.ub

/-- Observable actions of the layer-scoped `make_surface_current` callback in
`compositor.rs`. -/
inductive MscEvent
  | beginDraw
  | createSurface (s : Nat)
  | makeCurrent (s : Nat)
deriving DecidableEq

/-- Outcome of one `make_surface_current` invocation: a normal return carrying
the updated layer, the value written through `gl_state_changed`, the boolean
returned to the Engine and the trace; or a panic, carrying the trace of actions
already performed when the `assert!` fired. -/
inductive MscOutcome
  | ok (layer : CLayer) (glStateChanged : Bool) (ret : Bool) (trace : List MscEvent)
  | panicked (trace : List MscEvent)
deriving DecidableEq

/-- Embedding of the layer callback `make_surface_current` in `compositor.rs`:
it begins a draw against the layer's composition surface, then asserts that no
EGL surface is already open for the layer (aborting if one is — note the draw
has begun by then), wraps the obtained texture as a fresh EGL surface stored in
the layer, makes it current, writes `false` through `gl_state_changed`, and
returns `true`. -/
def make_surface_current (layer : CLayer) (fresh : Nat) : MscOutcome :=
  match layer.eglSurface with
  | some _ => MscOutcome.panicked [MscEvent.beginDraw]
  | none =>
    MscOutcome.ok { layer with eglSurface := some fresh } false true
      [MscEvent.beginDraw, MscEvent.createSurface fresh, MscEvent.makeCurrent fresh]

/-- Minimum of a list of instants, mirroring the incremental
`next_task_target_time = Some(min(next, target))` fold of the event loop in
`main.rs`. -/
def listMinNat : List Nat → Option Nat
  | [] => none
  | t :: rest =>
    some (match listMinNat rest with
      | none => t
      | some m => Nat.min t m)

/-- Embedding of one scheduling pass of the platform task runner (the
`tasks.retain(..)` block of the event loop in `main.rs`).  A task is a pair
(target time in nanoseconds, opaque task id).  Each pending task with
`now >= target_time` is executed and removed; every other task is kept and its
target time enters the next-wake minimum.  Returns (executed tasks in
encounter order, remaining tasks in order, next wake time). -/
def schedulingPass (now : Nat) :
    List (Nat × Nat) → List (Nat × Nat) × List (Nat × Nat) × Option Nat
  | [] => ([], [], none)
  | (t, j) :: rest =>
    let r := schedulingPass now rest
    if t ≤ now then ((t, j) :: r.1, r.2.1, r.2.2)
    else
      (r.1, (t, j) :: r.2.1,
        some (match r.2.2 with
          | none => t
          | some m => Nat.min t m))

/-- C1 (counterexample): with the resize state `Started(800, 600)`, the
framebuffer-acquisition callback does NOT leave the state as `Started`: it sets
it to `FrameGenerated` inside the callback itself, so the claim "leaves the
state as Started; the transition to FrameGenerated occurs only later, inside
the present callback" is false on the code. -/
theorem C1_fbo_leaves_started_refuted :
    (glFboCallback (mkGl (ResizeState.started 800 600) none)).1.resizeState =
      ResizeState.frameGenerated ∧
    decide ((glFboCallback (mkGl (ResizeState.started 800 600) none)).1.resizeState =
      ResizeState.started 800 600) = false := by
  exact ⟨rfl, rfl⟩

/-- C1 (amended): in the framebuffer-acquisition callback, when the resize
state is `Started(w, h)`, the callback resizes the compositor visual and the
target composition surface to `(w, h)` and transitions the state to
`FrameGenerated` within the framebuffer-acquisition callback itself; the
present callback performs no `Started → FrameGenerated` transition — on
`Started` it refuses and leaves the state untouched. -/
theorem C1_fbo_resizes_and_marks_frame (g : GlState) (w h : Nat)
    (hg : g.resizeState = ResizeState.started w h) :
    ((glFboCallback g).1.visualSize = (w, h)
      ∧ (glFboCallback g).1.compositionSurfaceSize = (w, h)
      ∧ (glFboCallback g).1.visualOffset = (0, h)
      ∧ (glFboCallback g).1.resizeState = ResizeState.frameGenerated)
    ∧ glPresent g = GlPresentResult.ret g false [] := by
  obtain ⟨rs, surf, vs, vo, cs, nid, cur⟩ := g
  have hrs : rs = ResizeState.started w h := hg
  subst hrs
  exact ⟨⟨rfl, rfl, rfl, rfl⟩, rfl⟩

/-- C1 (witness): the amended statement evaluated at a concrete `Started`
state. -/
theorem C1_fbo_resizes_and_marks_frame_witness :
    ((glFboCallback (mkGl (ResizeState.started 320 240) none)).1.visualSize = (320, 240)
      ∧ (glFboCallback (mkGl (ResizeState.started 320 240) none)).1.compositionSurfaceSize =
          (320, 240)
      ∧ (glFboCallback (mkGl (ResizeState.started 320 240) none)).1.visualOffset = (0, 240)
      ∧ (glFboCallback (mkGl (ResizeState.started 320 240) none)).1.resizeState =
          ResizeState.frameGenerated)
    ∧ glPresent (mkGl (ResizeState.started 320 240) none) =
        GlPresentResult.ret (mkGl (ResizeState.started 320 240) none) false [] :=
  C1_fbo_resizes_and_marks_frame (mkGl (ResizeState.started 320 240) none) 320 240 rfl

/-- C2: the present callback, by resize state: on `Started` it returns `false`
and performs no action; on `FrameGenerated` it presents the frame with a forced
`DwmFlush`, sets the state to `Done` and notifies the condition-variable
waiter; on `Done` it presents without the forced flush and returns `true`. -/
theorem C2_present_state_machine (g : GlState) :
    (∀ w h, g.resizeState = ResizeState.started w h →
      glPresent g = GlPresentResult.ret g false [])
    ∧ (∀ s, g.resizeState = ResizeState.frameGenerated → g.surface = some s →
      glPresent g = GlPresentResult.ret
        { g with resizeState := ResizeState.done, surface := none, currentSurface := none }
        true
        [GlEvent.glFlush, GlEvent.destroySurface s, GlEvent.makeContextCurrent,
          GlEvent.endDraw, GlEvent.dwmFlush, GlEvent.commit, GlEvent.notifyAll])
    ∧ (∀ s, g.resizeState = ResizeState.done → g.surface = some s →
      glPresent g = GlPresentResult.ret
        { g with surface := none, currentSurface := none } true
        [GlEvent.glFlush, GlEvent.destroySurface s, GlEvent.makeContextCurrent,
          GlEvent.endDraw, GlEvent.commit]) := by
  obtain ⟨rs, surf, vs, vo, cs, nid, cur⟩ := g
  refine ⟨?_, ?_, ?_⟩
  · intro w h hg
    have hrs : rs = ResizeState.started w h := hg
    subst hrs
    rfl
  · intro s hg hs
    have hrs : rs = ResizeState.frameGenerated := hg
    have hsurf : surf = some s := hs
    subst hrs
    subst hsurf
    rfl
  · intro s hg hs
    have hrs : rs = ResizeState.done := hg
    have hsurf : surf = some s := hs
    subst hrs
    subst hsurf
    rfl

/-- C2 (witness): the three branches of the present callback evaluated at
concrete states. -/
theorem C2_present_state_machine_witness :
    glPresent (mkGl (ResizeState.started 1 2) none) =
      GlPresentResult.ret (mkGl (ResizeState.started 1 2) none) false []
    ∧ glPresent (mkGl ResizeState.frameGenerated (some 7)) =
      GlPresentResult.ret (mkGl ResizeState.done none) true
        [GlEvent.glFlush, GlEvent.destroySurface 7, GlEvent.makeContextCurrent,
          GlEvent.endDraw, GlEvent.dwmFlush, GlEvent.commit, GlEvent.notifyAll]
    ∧ glPresent (mkGl ResizeState.done (some 7)) =
      GlPresentResult.ret (mkGl ResizeState.done none) true
        [GlEvent.glFlush, GlEvent.destroySurface 7, GlEvent.makeContextCurrent,
          GlEvent.endDraw, GlEvent.commit] :=
  ⟨(C2_present_state_machine (mkGl (ResizeState.started 1 2) none)).1 1 2 rfl,
    (C2_present_state_machine (mkGl ResizeState.frameGenerated (some 7))).2.1 7 rfl rfl,
    (C2_present_state_machine (mkGl ResizeState.done (some 7))).2.2 7 rfl rfl⟩

/-- C6 (counterexample): the present callback invoked with no stored drawable
(`Gl.surface = None`) while the resize state is `Started` does NOT abort: it
returns `false` with the state untouched, so the claim that every invocation
without a prior successful drawable acquisition panics is false on the code. -/
theorem C6_started_without_drawable_no_panic :
    glPresent (mkGl (ResizeState.started 10 10) none) =
      GlPresentResult.ret (mkGl (ResizeState.started 10 10) none) false []
    ∧ (glPresent (mkGl (ResizeState.started 10 10) none)).isPanicked = false := by
  exact ⟨rfl, rfl⟩

/-- C6 (amended): if the present callback proceeds to present — i.e. the
resize state is `FrameGenerated` or `Done` — without a drawable stored in
`Gl.surface`, the program panics (`present_frame` aborts) rather than
returning a recoverable error; only the `Started` refusal path returns
`false` without touching the drawable. -/
theorem C6_present_missing_drawable_panics (g : GlState) (hsurf : g.surface = none) :
    (g.resizeState = ResizeState.frameGenerated → glPresent g = GlPresentResult.panicked)
    ∧ (g.resizeState = ResizeState.done → glPresent g = GlPresentResult.panicked) := by
  obtain ⟨rs, surf, vs, vo, cs, nid, cur⟩ := g
  have hs : surf = none := hsurf
  subst hs
  constructor
  · intro hg
    have hrs : rs = ResizeState.frameGenerated := hg
    subst hrs
    rfl
  · intro hg
    have hrs : rs = ResizeState.done := hg
    subst hrs
    rfl

/-- C6 (witness): the amended statement evaluated at concrete drawable-less
states. -/
theorem C6_present_missing_drawable_panics_witness :
    glPresent (mkGl ResizeState.frameGenerated none) = GlPresentResult.panicked
    ∧ glPresent (mkGl ResizeState.done none) = GlPresentResult.panicked :=
  ⟨(C6_present_missing_drawable_panics (mkGl ResizeState.frameGenerated none) rfl).1 rfl,
    (C6_present_missing_drawable_panics (mkGl ResizeState.done none) rfl).2 rfl⟩

/-- C7: on an OS resize notification with a positive-size rectangle and a
non-null data pointer, the handler sets the state to `Started(w, h)`, forwards
the new window metrics to the Engine, and then blocks on the condition
variable — in that order, inside the single handler invocation that holds the
resize lock; and the `wait_while` predicate keeps the waiter blocked exactly
while the state is not `Done`. -/
theorem C7_resize_handler (l t r b : Int) (s : ResizeState)
    (hlr : l < r) (htb : t < b) :
    wndProcNcCalcSize false l t r b s =
      (ResizeState.started (u32OfInt (r - l)) (u32OfInt (b - t)),
        [UiEvent.defWindowProc,
          UiEvent.sendWindowMetrics (u32OfInt (r - l)) (u32OfInt (b - t)),
          UiEvent.condvarWaitUntilDone])
    ∧ (∀ s2 : ResizeState, resizeWaitShouldBlock s2 = false ↔ s2 = ResizeState.done) := by
  constructor
  · simp [wndProcNcCalcSize, hlr, htb]
  · intro s2
    cases s2 <;> simp [resizeWaitShouldBlock]

/-- C7 (witness): the handler evaluated on the rectangle (0, 0, 1024, 768). -/
theorem C7_resize_handler_witness :
    wndProcNcCalcSize false 0 0 1024 768 ResizeState.done =
      (ResizeState.started 1024 768,
        [UiEvent.defWindowProc, UiEvent.sendWindowMetrics 1024 768,
          UiEvent.condvarWaitUntilDone])
    ∧ resizeWaitShouldBlock ResizeState.done = false := by
  have h := C7_resize_handler 0 0 1024 768 ResizeState.done (by decide) (by decide)
  exact ⟨h.1, (h.2 ResizeState.done).mpr rfl⟩

/-- C9: when the present callback refuses because the resize state is
`Started`, the refusal is pure — the entire `Gl` state (resize state, stored
drawable surface, and every other field) is returned unchanged, no action is
performed, and `false` is returned. -/
theorem C9_refusal_pure (g : GlState) (w h : Nat)
    (hg : g.resizeState = ResizeState.started w h) :
    glPresent g = GlPresentResult.ret g false [] := by
  obtain ⟨rs, surf, vs, vo, cs, nid, cur⟩ := g
  have hrs : rs = ResizeState.started w h := hg
  subst hrs
  rfl

/-- C9 (witness): the refusal evaluated at a concrete `Started` state with an
open drawable, which is left in place for the Engine's retry. -/
theorem C9_refusal_pure_witness :
    glPresent (mkGl (ResizeState.started 640 480) (some 3)) =
      GlPresentResult.ret (mkGl (ResizeState.started 640 480) (some 3)) false [] :=
  C9_refusal_pure (mkGl (ResizeState.started 640 480) (some 3)) 640 480 rfl

/-- C5 (counterexample): after `collect_backing_store` has collected handle 0,
a second call on the same handle is undefined behaviour (`Box::from_raw` on a
freed pointer) — it is not a deliberate, detectable abort, so the claim that
the double call "fails loudly rather than being silently ignored" is false on
the code, which contains no liveness check on this path. -/
theorem C5_second_collect_not_detected :
    collectBackingStore [some (CLayer.mk 11 (some 5))] 0 =
      CollectOutcome.ok [none] [CollectEvent.destroySurface 5, CollectEvent.dropLayer]
    ∧ collectBackingStore [none] 0 = CollectOutcome.ub
    ∧ (collectBackingStore [none] 0).isDetectedAbort = false := by
  exact ⟨rfl, rfl, rfl⟩

/-- C5 (amended): `collect_backing_store` on a live layer with an open
drawable first destroys the drawable surface and then releases the layer (in
that order); a second call on the same handle is undefined behaviour — an
unchecked use-after-free — rather than a detected contract violation. -/
theorem C5_collect_order_then_ub (store : List (Option CLayer)) (h : Nat)
    (layer : CLayer) (s : Nat)
    (hh : store[h]? = some (some layer)) (hs : layer.eglSurface = some s) :
    collectBackingStore store h =
      CollectOutcome.ok (store.set h none)
        [CollectEvent.destroySurface s, CollectEvent.dropLayer]
    ∧ collectBackingStore (store.set h none) h = CollectOutcome.ub := by
  constructor
  · simp [collectBackingStore, hh, hs]
  · have hset : (store.set h none)[h]? = some none := by
      rw [List.getElem?_set_self', hh]
      rfl
    simp [collectBackingStore, hset]

/-- C5 (witness): the amended statement evaluated on a one-layer store whose
layer has drawable 5 open. -/
theorem C5_collect_order_then_ub_witness :
    collectBackingStore [some (CLayer.mk 11 (some 5))] 0 =
      CollectOutcome.ok ([some (CLayer.mk 11 (some 5))].set 0 none)
        [CollectEvent.destroySurface 5, CollectEvent.dropLayer]
    ∧ collectBackingStore ([some (CLayer.mk 11 (some 5))].set 0 none) 0 =
      CollectOutcome.ub :=
  C5_collect_order_then_ub [some (CLayer.mk 11 (some 5))] 0 (CLayer.mk 11 (some 5)) 5 rfl rfl

/-- C8 (counterexample): invoked on a layer whose drawable 5 is already open,
`make_surface_current` aborts only after `BeginDraw` has been issued against
the layer's composition surface: the abort trace is `[beginDraw]`, not the
empty trace that the claimed order ("asserts..., then begins a draw") would
produce. -/
theorem C8_assert_fires_after_beginDraw :
    make_surface_current (CLayer.mk 11 (some 5)) 7 =
      MscOutcome.panicked [MscEvent.beginDraw]
    ∧ decide (MscOutcome.panicked [MscEvent.beginDraw] =
        MscOutcome.panicked ([] : List MscEvent)) = false := by
  exact ⟨rfl, rfl⟩

/-- C8 (amended): every invocation of `make_surface_current` first begins a
draw against the layer's compositor surface, and then asserts that no drawable
is already open for the layer, aborting — with the draw already begun — if one
is; on the success path it wraps the obtained texture as an EGL surface stored
in the layer, binds it as the current render target, reports no GL state
change, and returns `true`. -/
theorem C8_make_surface_current_spec (layer : CLayer) (fresh : Nat) :
    (layer.eglSurface = none →
      make_surface_current layer fresh =
        MscOutcome.ok { layer with eglSurface := some fresh } false true
          [MscEvent.beginDraw, MscEvent.createSurface fresh, MscEvent.makeCurrent fresh])
    ∧ (∀ s, layer.eglSurface = some s →
      make_surface_current layer fresh = MscOutcome.panicked [MscEvent.beginDraw]) := by
  obtain ⟨v, es⟩ := layer
  constructor
  · intro hn
    have hes : es = none := hn
    subst hes
    rfl
  · intro s hs
    have hes : es = some s := hs
    subst hes
    rfl

/-- C8 (witness): both branches of the amended statement evaluated at concrete
layers. -/
theorem C8_make_surface_current_spec_witness :
    make_surface_current (CLayer.mk 11 none) 7 =
      MscOutcome.ok (CLayer.mk 11 (some 7)) false true
        [MscEvent.beginDraw, MscEvent.createSurface 7, MscEvent.makeCurrent 7]
    ∧ make_surface_current (CLayer.mk 12 (some 3)) 9 =
      MscOutcome.panicked [MscEvent.beginDraw] :=
  ⟨(C8_make_surface_current_spec (CLayer.mk 11 none) 7).1 rfl,
    (C8_make_surface_current_spec (CLayer.mk 12 (some 3)) 9).2 3 rfl⟩

/-- The executed component of a scheduling pass is exactly the due tasks, in
encounter order. -/
theorem schedulingPass_executed (now : Nat) (tasks : List (Nat × Nat)) :
    (schedulingPass now tasks).1 = tasks.filter fun p => decide (p.1 ≤ now) := by
  induction tasks with
  | nil => rfl
  | cons p rest ih =>
    obtain ⟨t, j⟩ := p
    by_cases h : t ≤ now
    · simp [schedulingPass, h, List.filter_cons, ih]
    · simp [schedulingPass, h, List.filter_cons, ih]

/-- The remaining component of a scheduling pass is exactly the not-yet-due
tasks, in order. -/
theorem schedulingPass_remaining (now : Nat) (tasks : List (Nat × Nat)) :
    (schedulingPass now tasks).2.1 = tasks.filter fun p => decide (now < p.1) := by
  induction tasks with
  | nil => rfl
  | cons p rest ih =>
    obtain ⟨t, j⟩ := p
    by_cases h : t ≤ now
    · have hnl : ¬ now < t := by omega
      simp [schedulingPass, h, hnl, List.filter_cons, ih]
    · have hl : now < t := by omega
      simp [schedulingPass, h, hl, List.filter_cons, ih]

/-- The next-wake component of a scheduling pass is the minimum of the
remaining tasks' target times. -/
theorem schedulingPass_nextWake (now : Nat) (tasks : List (Nat × Nat)) :
    (schedulingPass now tasks).2.2 =
      listMinNat ((tasks.filter fun p => decide (now < p.1)).map Prod.fst) := by
  induction tasks with
  | nil => rfl
  | cons p rest ih =>
    obtain ⟨t, j⟩ := p
    by_cases h : t ≤ now
    · have hnl : ¬ now < t := by omega
      simp [schedulingPass, h, hnl, List.filter_cons, ih]
    · have hl : now < t := by omega
      simp [schedulingPass, h, hl, List.filter_cons, listMinNat, ih]

/-- A list whose `listMinNat` is undefined is empty. -/
theorem listMinNat_eq_none (l : List Nat) (h : listMinNat l = none) : l = [] := by
  cases l with
  | nil => rfl
  | cons t rest => simp [listMinNat] at h

/-- The value computed by `listMinNat` is a lower bound of the list. -/
theorem listMinNat_le (l : List Nat) (m : Nat) (hm : listMinNat l = some m) :
    ∀ x ∈ l, m ≤ x := by
  induction l generalizing m with
  | nil => simp [listMinNat] at hm
  | cons t rest ih =>
    intro x hx
    cases hr : listMinNat rest with
    | none =>
      have hrest : rest = [] := listMinNat_eq_none rest hr
      subst hrest
      have hv : t = m := by
        have h0 : listMinNat [t] = some t := rfl
        rw [h0] at hm
        exact Option.some.inj hm
      have hxt : x = t := by simpa using hx
      subst hxt
      exact le_of_eq hv.symm
    | some m2 =>
      have hv : Nat.min t m2 = m := by
        have h0 : listMinNat (t :: rest) = some (Nat.min t m2) := by
          simp [listMinNat, hr]
        rw [h0] at hm
        exact Option.some.inj hm
      rcases List.mem_cons.mp hx with hx | hx
      · rw [hx, ← hv]
        exact Nat.min_le_left t m2
      · rw [← hv]
        exact le_trans (Nat.min_le_right t m2) (ih m2 hr x hx)

/-- The value computed by `listMinNat` is attained in the list. -/
theorem listMinNat_mem (l : List Nat) (m : Nat) (hm : listMinNat l = some m) :
    m ∈ l := by
  induction l generalizing m with
  | nil => simp [listMinNat] at hm
  | cons t rest ih =>
    cases hr : listMinNat rest with
    | none =>
      have hv : t = m := by
        have h0 : listMinNat (t :: rest) = some t := by
          simp [listMinNat, hr]
        rw [h0] at hm
        exact Option.some.inj hm
      rw [← hv]
      exact List.mem_cons_self t rest
    | some m2 =>
      have hv : Nat.min t m2 = m := by
        have h0 : listMinNat (t :: rest) = some (Nat.min t m2) := by
          simp [listMinNat, hr]
        rw [h0] at hm
        exact Option.some.inj hm
      rcases Nat.le_total t m2 with hle | hle
      · have hmin : Nat.min t m2 = t := Nat.min_eq_left hle
        rw [hmin] at hv
        rw [← hv]
        exact List.mem_cons_self t rest
      · have hmin : Nat.min t m2 = m2 := Nat.min_eq_right hle
        rw [hmin] at hv
        rw [← hv]
        exact List.mem_cons_of_mem t (ih m2 hr)

/-- C4: one scheduling pass of the platform task runner at logical time `now`
executes exactly the tasks whose target time is at most `now`, keeps every
later task pending, and sets the next wake deadline to the minimum target time
among the remaining tasks (a lower bound that is attained); in particular,
with pending target times {5, 1, 10} and `now = 6` it runs the tasks at 5 and
1, keeps the task at 10, and wakes at 10. -/
theorem C4_scheduling_pass (tasks : List (Nat × Nat)) (now : Nat) :
    (schedulingPass now tasks).1 = (tasks.filter fun p => decide (p.1 ≤ now))
    ∧ (schedulingPass now tasks).2.1 = (tasks.filter fun p => decide (now < p.1))
    ∧ (schedulingPass now tasks).2.2 =
        listMinNat ((tasks.filter fun p => decide (now < p.1)).map Prod.fst)
    ∧ (∀ m, (schedulingPass now tasks).2.2 = some m →
        (∀ x ∈ ((tasks.filter fun p => decide (now < p.1)).map Prod.fst), m ≤ x)
        ∧ m ∈ ((tasks.filter fun p => decide (now < p.1)).map Prod.fst))
    ∧ schedulingPass 6 [(5, 101), (1, 102), (10, 103)] =
        ([(5, 101), (1, 102)], [(10, 103)], some 10) := by
  refine ⟨schedulingPass_executed now tasks, schedulingPass_remaining now tasks,
    schedulingPass_nextWake now tasks, ?_, rfl⟩
  intro m hm
  rw [schedulingPass_nextWake now tasks] at hm
  exact ⟨listMinNat_le _ m hm, listMinNat_mem _ m hm⟩

/-- C4 (witness): the pass evaluated on target times {5, 1, 10} at `now = 6`,
with the minimality facts instantiated at the computed wake time 10. -/
theorem C4_scheduling_pass_witness :
    schedulingPass 6 [(5, 101), (1, 102), (10, 103)] =
      ([(5, 101), (1, 102)], [(10, 103)], some 10)
    ∧ (10 : Nat) ≤ 10
    ∧ 10 ∈ (([((5 : Nat), (101 : Nat)), (1, 102), (10, 103)].filter
        fun p => decide (6 < p.1)).map Prod.fst) := by
  have h := C4_scheduling_pass [(5, 101), (1, 102), (10, 103)] 6
  have hmin := h.2.2.2.1 10 (by rfl)
  exact ⟨h.2.2.2.2, hmin.1 10 (by decide), hmin.2⟩

/-- Unfolding of one `present_layers` loop step when the rebuild flag is
already set: the snapshot is not consulted at all (the disjunction
short-circuits), the content-type assertion passes, and the step proceeds into
the rest of the layers with the flag still set. -/
theorem presentLayersLoop_cons_true (old : List Nat) (l : FLayer) (rest : List FLayer)
    (i : Nat) (hb : l.isBackingStore = true) :
    presentLayersLoop old (l :: rest) i true =
      (match presentLayersLoop old rest (i + 1) true with
        | CompResult.panicked k => CompResult.panicked k
        | CompResult.ok (f, ls, es) =>
          CompResult.ok (f, { l with eglSurface := none } :: ls,
            (match l.eglSurface with
              | some s => [CompEvent.endDraw l.ptr, CompEvent.destroySurface s]
              | none => []) ++ es)) := by
  simp [presentLayersLoop, hb]

/-- Unfolding of one `present_layers` loop step when the rebuild flag is still
unset and position `i` exists in the snapshot: the flag for the rest of the
loop is the per-position comparison `self.layers[i] != layer`. -/
theorem presentLayersLoop_cons_false (old : List Nat) (l : FLayer) (rest : List FLayer)
    (i : Nat) (hi : i < old.length) (hb : l.isBackingStore = true) :
    presentLayersLoop old (l :: rest) i false =
      (match presentLayersLoop old rest (i + 1) (decide (old[i] ≠ l.ptr)) with
        | CompResult.panicked k => CompResult.panicked k
        | CompResult.ok (f, ls, es) =>
          CompResult.ok (f, { l with eglSurface := none } :: ls,
            (match l.eglSurface with
              | some s => [CompEvent.endDraw l.ptr, CompEvent.destroySurface s]
              | none => []) ++ es)) := by
  have hgeti : old[i]? = some old[i] := List.getElem?_eq_getElem hi
  simp [presentLayersLoop, hgeti, hb]

/-- Characterization of the `present_layers` per-layer loop when every layer is
a backing store: it never panics, its final flag is the initial flag joined
with "the snapshot from position `i` on differs from the new pointer list",
and it drains every open drawable.  The length hypothesis is the code's
invariant that the flag is still `false` only while the snapshot has an entry
for every remaining position. -/
theorem presentLayersLoop_spec (old : List Nat) (layers : List FLayer) :
    ∀ (i : Nat) (flag : Bool),
      (∀ l ∈ layers, l.isBackingStore = true) →
      (flag = false → i + layers.length = old.length) →
      presentLayersLoop old layers i flag =
        CompResult.ok
          ((flag || decide (old.drop i ≠ layers.map FLayer.ptr)),
            drainedLayers layers, drainEvents layers) := by
  induction layers with
  | nil =>
    intro i flag hbs hlen
    cases flag with
    | true => simp [presentLayersLoop, drainedLayers, drainEvents]
    | false =>
      have hi : old.length ≤ i := by
        have h0 := hlen rfl
        simp at h0
        omega
      have hdrop : old.drop i = [] := List.drop_eq_nil_iff.mpr hi
      simp [presentLayersLoop, drainedLayers, drainEvents, hdrop]
  | cons l rest ih =>
    intro i flag hbs hlen
    have hbsl : l.isBackingStore = true := hbs l (List.mem_cons_self l rest)
    have hbsr : ∀ x ∈ rest, x.isBackingStore = true := fun x hx =>
      hbs x (List.mem_cons_of_mem l hx)
    cases flag with
    | true =>
      have hrec := ih (i + 1) true hbsr (fun h => absurd h (by decide))
      rw [presentLayersLoop_cons_true old l rest i hbsl, hrec]
      simp [drainedLayers, drainEvents]
    | false =>
      have hlen1 : i + 1 + rest.length = old.length := by
        have h0 := hlen rfl
        simp only [List.length_cons] at h0
        omega
      have hi : i < old.length := by omega
      have hrec := ih (i + 1) (decide (old[i] ≠ l.ptr)) hbsr (fun _ => hlen1)
      have hdrop : old.drop i = old[i] :: old.drop (i + 1) :=
        (List.getElem_cons_drop old i hi).symm
      have hsplit : (old.drop i = l.ptr :: List.map FLayer.ptr rest) ↔
          (old[i] = l.ptr ∧ old.drop (i + 1) = List.map FLayer.ptr rest) := by
        rw [hdrop]
        simp only [List.cons.injEq]
      have hflag : (decide (old[i] ≠ l.ptr)
            || decide (old.drop (i + 1) ≠ List.map FLayer.ptr rest))
          = decide (old.drop i ≠ (l.ptr :: List.map FLayer.ptr rest)) := by
        rw [← Bool.decide_or]
        apply decide_eq_decide.mpr
        simp only [ne_eq, hsplit, not_and_or]
      rw [presentLayersLoop_cons_false old l rest i hi hbsl, hrec]
      simp only [Bool.false_or, List.map_cons, drainedLayers, drainEvents, hflag]

/-- The `present_layers` per-layer loop never hits the out-of-bounds snapshot
indexing, under the code's invariant that the flag is still `false` only while
the snapshot covers every remaining position (a length mismatch raises the
flag before the loop). -/
theorem presentLayersLoop_no_index_panic (old : List Nat) (layers : List FLayer) :
    ∀ (i : Nat) (flag : Bool),
      (flag = false → i + layers.length = old.length) →
      isIndexPanic (presentLayersLoop old layers i flag) = false := by
  induction layers with
  | nil => intro i flag hlen; simp [presentLayersLoop, isIndexPanic]
  | cons l rest ih =>
    intro i flag hlen
    cases flag with
    | true =>
      by_cases hb : l.isBackingStore = true
      · rw [presentLayersLoop_cons_true old l rest i hb]
        cases hres : presentLayersLoop old rest (i + 1) true with
        | panicked k =>
          have hih := ih (i + 1) true (fun h => absurd h (by decide))
          rw [hres] at hih
          exact hih
        | ok tr =>
          obtain ⟨f, ls, es⟩ := tr
          rfl
      · have hb2 : l.isBackingStore = false := by
          cases hv : l.isBackingStore
          · rfl
          · exact absurd hv hb
        have hassert : presentLayersLoop old (l :: rest) i true =
            CompResult.panicked PanicKind.assertionFailed := by
          simp [presentLayersLoop, hb2]
        rw [hassert]
        rfl
    | false =>
      have hlen1 : i + 1 + rest.length = old.length := by
        have h0 := hlen rfl
        simp only [List.length_cons] at h0
        omega
      have hi : i < old.length := by omega
      by_cases hb : l.isBackingStore = true
      · rw [presentLayersLoop_cons_false old l rest i hi hb]
        cases hres : presentLayersLoop old rest (i + 1) (decide (old[i] ≠ l.ptr)) with
        | panicked k =>
          have hih := ih (i + 1) (decide (old[i] ≠ l.ptr)) (fun _ => hlen1)
          rw [hres] at hih
          exact hih
        | ok tr =>
          obtain ⟨f, ls, es⟩ := tr
          rfl
      · have hb2 : l.isBackingStore = false := by
          cases hv : l.isBackingStore
          · rfl
          · exact absurd hv hb
        have hgeti : old[i]? = some old[i] := List.getElem?_eq_getElem hi
        have hassert : presentLayersLoop old (l :: rest) i false =
            CompResult.panicked PanicKind.assertionFailed := by
          simp [presentLayersLoop, hgeti, hb2]
        rw [hassert]
        rfl

/-- The drawable-finalization events of `present_layers` contain no
visual-tree mutation. -/
theorem visualMutations_drainEvents (ls : List FLayer) :
    visualMutations (drainEvents ls) = [] := by
  induction ls with
  | nil => rfl
  | cons l rest ih =>
    cases hs : l.eglSurface with
    | none =>
      have hstep : drainEvents (l :: rest) = drainEvents rest := by
        simp [drainEvents, hs]
      rw [hstep]
      exact ih
    | some s =>
      have hstep : drainEvents (l :: rest) =
          CompEvent.endDraw l.ptr :: CompEvent.destroySurface s :: drainEvents rest := by
        simp [drainEvents, hs]
      rw [hstep]
      exact ih

/-- C10: `present_layers` never panics on the snapshot indexing
`self.layers[i]`: the per-position comparison is short-circuited away whenever
the rebuild flag is already set, and a length mismatch sets the flag before
the loop, so the snapshot has an entry at every index actually accessed —
whatever the old snapshot and the new layer list are. -/
theorem C10_no_snapshot_index_panic (old : List Nat) (layers : List FLayer) :
    isIndexPanic (presentLayers old layers) = false := by
  have hlen : decide (old.length ≠ layers.length) = false →
      0 + layers.length = old.length := by
    intro h
    have h2 : old.length = layers.length := not_ne_iff.mp (of_decide_eq_false h)
    omega
  have hloop := presentLayersLoop_no_index_panic old layers 0
    (decide (old.length ≠ layers.length)) hlen
  cases hres : presentLayersLoop old layers 0 (decide (old.length ≠ layers.length)) with
  | panicked k =>
    rw [hres] at hloop
    have hgoal : presentLayers old layers = CompResult.panicked k := by
      simp only [presentLayers, hres]
    rw [hgoal]
    cases k with
    | indexOutOfBounds => simp [isIndexPanic] at hloop
    | assertionFailed => rfl
  | ok tr =>
    obtain ⟨flag, drained, evs⟩ := tr
    have hgoal := hres
    simp only [presentLayers, hres]
    cases flag
    · rfl
    · rfl

/-- C3: `present_layers` rebuilds the visual tree (removes all children of the
root visual and reinserts each layer's visual in order) exactly when the
ordered layer-pointer sequence differs from the stored snapshot — by length or
by per-position identity; when the sequences agree the call performs zero
visual-tree mutations (only drawable finalization and the presentation hook)
and leaves the snapshot untouched.  Since a rebuilding call stores the new
pointer list as the snapshot, a second call with the same ordered list falls
into the first branch and mutates nothing. -/
theorem C3_present_layers_rebuild_iff (old : List Nat) (layers : List FLayer)
    (hbs : ∀ l ∈ layers, l.isBackingStore = true) :
    (old = layers.map FLayer.ptr →
      presentLayers old layers =
        CompResult.ok (old, drainedLayers layers,
          drainEvents layers ++ [CompEvent.handlerPresent])
      ∧ visualMutations (drainEvents layers ++ [CompEvent.handlerPresent]) = [])
    ∧ (old ≠ layers.map FLayer.ptr →
      presentLayers old layers =
        CompResult.ok (layers.map FLayer.ptr, drainedLayers layers,
          drainEvents layers ++ CompEvent.removeAllChildren ::
            (layers.map (fun l => CompEvent.insertAtTop l.visual)
              ++ [CompEvent.handlerPresent]))) := by
  constructor
  · intro heq
    have hflag0 : decide (old.length ≠ layers.length) = false := by
      simp [heq]
    have hloop := presentLayersLoop_spec old layers 0 false hbs (by
      intro _
      simp [heq])
    have hflag : (false || decide (old.drop 0 ≠ List.map FLayer.ptr layers)) = false := by
      simp [heq]
    rw [hflag] at hloop
    constructor
    · simp only [presentLayers, hflag0, hloop]
      rfl
    · have hd := visualMutations_drainEvents layers
      simp only [visualMutations] at hd
      simp [visualMutations, List.filter_append, hd]
  · intro hne
    by_cases hlen : old.length = layers.length
    · have hflag0 : decide (old.length ≠ layers.length) = false := by
        simp [hlen]
      have hloop := presentLayersLoop_spec old layers 0 false hbs (by
        intro _
        simp [hlen])
      have hflag : (false || decide (old.drop 0 ≠ List.map FLayer.ptr layers)) = true := by
        simp [hne]
      rw [hflag] at hloop
      simp only [presentLayers, hflag0, hloop]
      rfl
    · have hflag0 : decide (old.length ≠ layers.length) = true := by
        simp [hlen]
      have hloop := presentLayersLoop_spec old layers 0 true hbs
        (fun h => absurd h (by decide))
      have hflag : (true || decide (old.drop 0 ≠ List.map FLayer.ptr layers)) = true := by
        simp
      rw [hflag] at hloop
      simp only [presentLayers, hflag0, hloop]
      rfl

/-- C3 (witness): two layers presented against the matching snapshot `[1, 2]`
(no mutation, open drawable 5 drained) and against the reordered snapshot
`[2, 1]` (full rebuild in the given order). -/
theorem C3_present_layers_rebuild_iff_witness :
    (presentLayers [1, 2] [FLayer.mk 1 11 true (some 5), FLayer.mk 2 12 true none] =
      CompResult.ok ([1, 2],
        [FLayer.mk 1 11 true none, FLayer.mk 2 12 true none],
        [CompEvent.endDraw 1, CompEvent.destroySurface 5, CompEvent.handlerPresent])
      ∧ visualMutations
          [CompEvent.endDraw 1, CompEvent.destroySurface 5, CompEvent.handlerPresent] = [])
    ∧ presentLayers [2, 1] [FLayer.mk 1 11 true (some 5), FLayer.mk 2 12 true none] =
      CompResult.ok ([1, 2],
        [FLayer.mk 1 11 true none, FLayer.mk 2 12 true none],
        [CompEvent.endDraw 1, CompEvent.destroySurface 5, CompEvent.removeAllChildren,
          CompEvent.insertAtTop 11, CompEvent.insertAtTop 12, CompEvent.handlerPresent]) :=
  ⟨(C3_present_layers_rebuild_iff [1, 2]
      [FLayer.mk 1 11 true (some 5), FLayer.mk 2 12 true none] (by decide)).1 rfl,
    (C3_present_layers_rebuild_iff [2, 1]
      [FLayer.mk 1 11 true (some 5), FLayer.mk 2 12 true none] (by decide)).2 (by decide)⟩
